import Mathlib

/-!
Verification of the `shallow-debug` derive macro (src/src/lib.rs).

The macro `derive_shallow_debug` parses its input as a `syn::DeriveInput`
and emits a `Debug` impl whose `fmt` body writes a fixed literal per
shape/variant, never touching field values.  We embed the parsed input
(`DeriveInput`), the generator (`fmt_body` via `fmtBody`, `bounds`,
`ty_vars`, `impl_debug` via `implDebug`, and the assembled
`deriveShallowDebug`), a text renderer for the emitted tokens, and the
runtime semantics of the generated `fmt` method (`generatedFmt`),
including the brace unescaping performed by `write!` on its format
string.
-/

namespace ShallowDebug

/-- One field of a struct or variant: optional name and a type, both as
source text.  The generator never reads either. -/
structure Field where
  name : Option String
  ty : String
deriving DecidableEq

/-- Mirrors `syn::Fields`: named fields, unnamed (positional) fields, or unit. -/
inductive Fields where
  | named (fields : List Field)
  | unnamed (fields : List Field)
  | unit
deriving DecidableEq

/-- An enum variant: its identifier and its fields (`syn::Variant`). -/
structure Variant where
  ident : String
  fields : Fields
deriving DecidableEq

/-- Mirrors `syn::Data`: enum with its variants, struct with its fields,
or union (whose fields the generator ignores). -/
inductive Data where
  | enum (variants : List Variant)
  | struct (fields : Fields)
  | union (fields : List Field)
deriving DecidableEq

/-- A lifetime parameter (`syn::LifetimeParam`): the lifetime name (with
its tick) and its declared bounds as token text. -/
structure LifetimeParam where
  lifetime : String
  bounds : List String
deriving DecidableEq

/-- A type parameter (`syn::TypeParam`): identifier, declared bounds, and
optional default type, all as token text. -/
structure TypeParam where
  ident : String
  bounds : List String
  default : Option String
deriving DecidableEq

/-- A const parameter (`syn::ConstParam`): identifier, type, optional
default.  Its `to_token_stream` prints the whole declaration. -/
structure ConstParam where
  ident : String
  ty : String
  default : Option String
deriving DecidableEq

/-- Mirrors `syn::GenericParam`. -/
inductive GenericParam where
  | lifetime (l : LifetimeParam)
  | type (t : TypeParam)
  | const (c : ConstParam)
deriving DecidableEq

/-- The generics of the input: the ordered parameter list and the
predicates of the free-standing `where` clause, each predicate kept as
its token text (`clause.predicates` mapped through `to_token_stream`). -/
structure Generics where
  params : List GenericParam
  whereClause : List String
deriving DecidableEq

/-- Mirrors `syn::DeriveInput` as used by the macro: identifier,
generics, and data. -/
structure DeriveInput where
  ident : String
  generics : Generics
  data : Data
deriving DecidableEq

/-! ### Characters and brace escaping

`format!("{ident}{{{{..}}}}")` evaluates to the text `ident` followed by
`{{..}}`: the doubled braces are the *escaped* form that `write!` later
turns into single braces at the generated code's runtime.  We model both
stages: the stored format literal keeps doubled braces, and `write!`
semantics unescape them. -/

/-- The left brace character. -/
def braceL : Char := '\x7b'

/-- The right brace character. -/
def braceR : Char := '\x7d'

/-- Is this character a brace? -/
def isBrace (c : Char) : Bool := c = braceL || c = braceR

/-- Collapse doubled braces to single braces, the way `write!` treats a
format string that contains no interpolation holes. -/
def unescapeChars : List Char → List Char
  | [] => []
  | [c] => [c]
  | c1 :: c2 :: rest =>
    if c1 = c2 && isBrace c1 then c1 :: unescapeChars rest
    else c1 :: unescapeChars (c2 :: rest)

/-- `write!` semantics on a hole-free format string. -/
def unescape (s : String) : String := String.mk (unescapeChars s.data)

/-- The escaped brace pair `\x7b\x7b..\x7d\x7d` appearing in the stored
format literals (source lines 47 and 69). -/
def escBraceDots : String := String.mk [braceL, braceL, '.', '.', braceR, braceR]

/-- The unescaped text `\x7b..\x7d` that `write!` prints for `escBraceDots`. -/
def braceDots : String := String.mk [braceL, '.', '.', braceR]

/-! ### The generated `fmt` body -/

/-- A match pattern of the generated dispatch.  The generator only ever
produces the first three forms; the binding forms and the wildcard are
included so that their absence is a statement about the generator, not
about the type. -/
inductive Pat where
  | path (segs : List String)
  | braceDotsPat (segs : List String)
  | parenDotsPat (segs : List String)
  | braceBind (segs : List String) (binders : List String)
  | parenBind (segs : List String) (binders : List String)
  | wild
deriving DecidableEq

/-- The variant identifier a pattern matches on: the last path segment. -/
def patVariant : Pat → Option String
  | Pat.path segs => segs.getLast?
  | Pat.braceDotsPat segs => segs.getLast?
  | Pat.parenDotsPat segs => segs.getLast?
  | Pat.braceBind segs _ => segs.getLast?
  | Pat.parenBind segs _ => segs.getLast?
  | Pat.wild => none

/-- The field binders a pattern introduces. -/
def patBinders : Pat → List String
  | Pat.braceBind _ bs => bs
  | Pat.parenBind _ bs => bs
  | _ => []

/-- Is the pattern a wildcard (default/fallback) arm? -/
def patIsWild : Pat → Bool
  | Pat.wild => true
  | _ => false

/-- One arm of the generated dispatch: a pattern and the format literal
passed to `write!` (stored with escaped braces, as `format!` produced it). -/
structure Arm where
  pat : Pat
  fmtStr : String
deriving DecidableEq

/-- The generated `fmt` body: either a single `write!` call or a
`match self` over arms. -/
inductive FmtBody where
  | write (fmtStr : String)
  | matchSelf (arms : List Arm)
deriving DecidableEq

/-- The arm generated for one enum variant (source lines 43-59). -/
def variantArm (ident : String) (v : Variant) : Arm :=
  match v.fields with
  | Fields.named _ =>
    { pat := Pat.braceDotsPat [ident, v.ident]
      fmtStr := ident ++ "::" ++ v.ident ++ escBraceDots }
  | Fields.unnamed _ =>
    { pat := Pat.parenDotsPat [ident, v.ident]
      fmtStr := ident ++ "::" ++ v.ident ++ "(..)" }
  | Fields.unit =>
    { pat := Pat.path [ident, v.ident]
      fmtStr := ident ++ "::" ++ v.ident }

/-- The `fmt_body` computed at source lines 40-86. -/
def fmtBody (ident : String) : Data → FmtBody
  | Data.enum variants => FmtBody.matchSelf (variants.map (variantArm ident))
  | Data.struct fs =>
    match fs with
    | Fields.named _ => FmtBody.write (ident ++ escBraceDots)
    | Fields.unnamed _ => FmtBody.write (ident ++ "(..)")
    | Fields.unit => FmtBody.write ident
  | Data.union _ => FmtBody.write ident

/-! ### Bounds and type variables -/

/-- The constraint contributed by one generic parameter (the
`filter_map` closure at source lines 89-103): a lifetime or type
parameter with nonempty bounds contributes `ident: bounds`, everything
else contributes nothing. -/
def paramBound : GenericParam → Option String
  | GenericParam.lifetime l =>
    if l.bounds.isEmpty then none
    else some (l.lifetime ++ ": " ++ String.intercalate " + " l.bounds)
  | GenericParam.type t =>
    if t.bounds.isEmpty then none
    else some (t.ident ++ ": " ++ String.intercalate " + " t.bounds)
  | GenericParam.const _ => none

/-- The `bounds` iterator (source lines 88-107): per-parameter
constraints chained with the where-clause predicates. -/
def bounds (g : Generics) : List String :=
  g.params.filterMap paramBound ++ g.whereClause

/-- The token text one parameter contributes to `ty_vars` (source lines
110-121): the lifetime name, the type identifier (with `= default` when
a default is declared), or the const parameter's full `to_token_stream`. -/
def tyVar : GenericParam → String
  | GenericParam.lifetime l => l.lifetime
  | GenericParam.type t =>
    match t.default with
    | some d => t.ident ++ " = " ++ d
    | none => t.ident
  | GenericParam.const c =>
    "const " ++ c.ident ++ ": " ++ c.ty ++
      (match c.default with
       | some d => " = " ++ d
       | none => "")

/-- The `ty_vars` vector (source lines 109-122). -/
def ty_vars (g : Generics) : List String := g.params.map tyVar

/-! ### The impl header and the assembled output -/

/-- The `impl std::fmt::Debug for ...` header.  `bare` is the
zero-generics branch; `generic` holds the tokens interpolated into the
template `impl<#implParams> std::fmt::Debug for #ident<#targetArgs>
where #bnds` — the source fills both holes from the same `ty_vars`. -/
inductive ImplHeader where
  | bare (ident : String)
  | generic (implParams : List String) (targetArgs : List String)
      (ident : String) (bnds : List String)
deriving DecidableEq

/-- The constraints of the emitted where clause, empty for a bare impl. -/
def headerBounds : ImplHeader → List String
  | ImplHeader.bare _ => []
  | ImplHeader.generic _ _ _ b => b

/-- The generic parameter list of the emitted impl. -/
def headerImplParams : ImplHeader → List String
  | ImplHeader.bare _ => []
  | ImplHeader.generic ip _ _ _ => ip

/-- The generic argument list applied to the type name in the impl target. -/
def headerTargetArgs : ImplHeader → List String
  | ImplHeader.bare _ => []
  | ImplHeader.generic _ ta _ _ => ta

/-- The `impl_debug` header (source lines 125-135): bare when `ty_vars`
is empty, otherwise generic with `ty_vars` in both holes and the chained
`bounds` after `where`. -/
def implDebug (input : DeriveInput) : ImplHeader :=
  if (ty_vars input.generics).isEmpty then ImplHeader.bare input.ident
  else ImplHeader.generic (ty_vars input.generics) (ty_vars input.generics)
    input.ident (bounds input.generics)

/-- The full generated item: header plus `fmt` body (source lines 137-143). -/
structure GeneratedImpl where
  header : ImplHeader
  body : FmtBody
deriving DecidableEq

/-- The whole generator on a successfully parsed input. -/
def deriveShallowDebug (input : DeriveInput) : GeneratedImpl :=
  { header := implDebug input, body := fmtBody input.ident input.data }

/-- The macro entry point: `syn::parse_macro_input!` either fails, in
which case the error is reported and nothing is generated (source line
37), or yields a `DeriveInput` on which the rest of the function is
total. -/
def deriveEntry : Except String DeriveInput → Except String GeneratedImpl
  | Except.error e => Except.error e
  | Except.ok input => Except.ok (deriveShallowDebug input)

/-! ### Rendering the emitted tokens as text -/

/-- Render a pattern. -/
def renderPat : Pat → String
  | Pat.path segs => String.intercalate "::" segs
  | Pat.braceDotsPat segs => String.intercalate "::" segs ++ braceDots
  | Pat.parenDotsPat segs => String.intercalate "::" segs ++ "(..)"
  | Pat.braceBind segs bs =>
    String.intercalate "::" segs ++ String.mk [braceL] ++
      String.intercalate ", " bs ++ String.mk [braceR]
  | Pat.parenBind segs bs =>
    String.intercalate "::" segs ++ "(" ++ String.intercalate ", " bs ++ ")"
  | Pat.wild => "_"

/-- Render one dispatch arm. -/
def renderArm (a : Arm) : String :=
  renderPat a.pat ++ " => write!(f, \"" ++ a.fmtStr ++ "\")"

/-- Render the `fmt` body. -/
def renderBody : FmtBody → String
  | FmtBody.write s => "write!(f, \"" ++ s ++ "\")"
  | FmtBody.matchSelf arms =>
    "match self " ++ String.mk [braceL] ++ " " ++
      String.intercalate ", " (arms.map renderArm) ++ " " ++ String.mk [braceR]

/-- Render the impl header.  In the generic branch the `where` keyword is
emitted unconditionally, even when the constraint list is empty, exactly
as in the source template. -/
def renderHeader : ImplHeader → String
  | ImplHeader.bare i => "impl std::fmt::Debug for " ++ i
  | ImplHeader.generic ip ta i b =>
    "impl<" ++ String.intercalate ", " ip ++ "> std::fmt::Debug for " ++
      i ++ "<" ++ String.intercalate ", " ta ++ "> where " ++
      String.intercalate ", " b

/-- Render the whole generated item. -/
def renderImpl (g : GeneratedImpl) : String :=
  renderHeader g.header ++ " " ++ String.mk [braceL] ++
    " fn fmt(&self, f: &mut std::fmt::Formatter<\x27_>) -> std::fmt::Result " ++
    String.mk [braceL] ++ " " ++ renderBody g.body ++ " " ++
    String.mk [braceR] ++ " " ++ String.mk [braceR]

/-! ### Runtime semantics of the generated `fmt` -/

/-- A runtime value of the subject type, as far as the generated code can
observe it: a struct or union value, or an enum value with its active
variant's name.  Field contents are deliberately absent: the generated
patterns bind nothing. -/
inductive Value where
  | plain
  | enumv (variantName : String)
deriving DecidableEq

/-- The arm selected by `match self`: the first arm whose pattern's path
names the active variant. -/
def armFor (arms : List Arm) (name : String) : Option Arm :=
  arms.find? (fun a => patVariant a.pat == some name)

/-- What the generated `fmt` writes for a given value: the unescaped
format literal of the single `write!`, or of the matching arm. -/
def generatedFmt (g : GeneratedImpl) (v : Value) : Option String :=
  match g.body, v with
  | FmtBody.write s, Value.plain => some (unescape s)
  | FmtBody.matchSelf arms, Value.enumv n =>
    (armFor arms n).map (fun a => unescape a.fmtStr)
  | _, _ => none

/-! ### Shape skeletons (what the generator may depend on) -/

/-- The kind of a field grouping. -/
inductive FieldKindTag where
  | namedK
  | unnamedK
  | unitK
deriving DecidableEq

/-- The kind of a `Fields` value, forgetting names and types. -/
def fieldsKind : Fields → FieldKindTag
  | Fields.named _ => FieldKindTag.namedK
  | Fields.unnamed _ => FieldKindTag.unnamedK
  | Fields.unit => FieldKindTag.unitK

/-- The skeleton of a variant: its name and its field kind. -/
def variantSkel (v : Variant) : String × FieldKindTag :=
  (v.ident, fieldsKind v.fields)

/-- The skeleton of a data shape: everything except field names and types. -/
inductive DataSkel where
  | enumS (vs : List (String × FieldKindTag))
  | structS (k : FieldKindTag)
  | unionS
deriving DecidableEq

/-- Forget field names and types of a data shape. -/
def dataSkel : Data → DataSkel
  | Data.enum vs => DataSkel.enumS (vs.map variantSkel)
  | Data.struct fs => DataSkel.structS (fieldsKind fs)
  | Data.union _ => DataSkel.unionS

/-- The bounds a parameter declares in the input (before any filtering). -/
def declaredBounds : GenericParam → List String
  | GenericParam.lifetime l => l.bounds
  | GenericParam.type t => t.bounds
  | GenericParam.const _ => []

/-- Does the string contain no brace character?  (True of every Rust
identifier.) -/
def noBraces (s : String) : Bool := s.data.all (fun c => !(isBrace c))

/-! ### Example inputs (concrete parsed declarations) -/

/-- `struct Point { x: f64, y: f64 }` -/
def exStructNamed : DeriveInput :=
  { ident := "Point"
    generics := { params := [], whereClause := [] }
    data := Data.struct (Fields.named
      [{ name := some "x", ty := "f64" }, { name := some "y", ty := "f64" }]) }

/-- `enum E<A> { V1, V2 { a: A }, V3(A) }` -/
def exEnum : DeriveInput :=
  { ident := "E"
    generics :=
      { params := [GenericParam.type { ident := "A", bounds := [], default := none }]
        whereClause := [] }
    data := Data.enum
      [ { ident := "V1", fields := Fields.unit }
      , { ident := "V2", fields := Fields.named [{ name := some "a", ty := "A" }] }
      , { ident := "V3", fields := Fields.unnamed [{ name := none, ty := "A" }] } ] }

/-- `struct Foo where String: Clone;` — no generic parameters but a
free-standing where clause. -/
def exWhereNoGenerics : DeriveInput :=
  { ident := "Foo"
    generics := { params := [], whereClause := ["String: Clone"] }
    data := Data.struct Fields.unit }

/-- `struct Wrap<T: Clone + Send>(T) where T: Sync;` -/
def exBounded : DeriveInput :=
  { ident := "Wrap"
    generics :=
      { params := [GenericParam.type { ident := "T", bounds := ["Clone", "Send"], default := none }]
        whereClause := ["T: Sync"] }
    data := Data.struct (Fields.unnamed [{ name := none, ty := "T" }]) }

/-- `struct Arr<const N: usize>([u8; N]);` -/
def exConst : DeriveInput :=
  { ident := "Arr"
    generics :=
      { params := [GenericParam.const { ident := "N", ty := "usize", default := none }]
        whereClause := [] }
    data := Data.struct (Fields.unnamed [{ name := none, ty := "[u8; N]" }]) }

/-- `struct D<T = i32> { x: T }` -/
def exDefault : DeriveInput :=
  { ident := "D"
    generics :=
      { params := [GenericParam.type { ident := "T", bounds := [], default := some "i32" }]
        whereClause := [] }
    data := Data.struct (Fields.named [{ name := some "x", ty := "T" }]) }

/-- `struct P<T>(T);` — one parameter, no bounds, no where clause. -/
def exPlain : DeriveInput :=
  { ident := "P"
    generics :=
      { params := [GenericParam.type { ident := "T", bounds := [], default := none }]
        whereClause := [] }
    data := Data.struct (Fields.unnamed [{ name := none, ty := "T" }]) }

/-- `struct S { x: u8 }` -/
def exSkelA : DeriveInput :=
  { ident := "S"
    generics := { params := [], whereClause := [] }
    data := Data.struct (Fields.named [{ name := some "x", ty := "u8" }]) }

/-- `struct S { y: String, z: NotDebug }` — same skeleton as `exSkelA`
apart from field names, count, and types. -/
def exSkelB : DeriveInput :=
  { ident := "S"
    generics := { params := [], whereClause := [] }
    data := Data.struct (Fields.named
      [{ name := some "y", ty := "String" }, { name := some "z", ty := "NotDebug" }]) }

/-! ### Helper lemmas about brace escaping -/

theorem data_append (s t : String) : (s ++ t).data = s.data ++ t.data := rfl

theorem unescapeChars_cons_of_not_brace (c : Char) (h : isBrace c = false) (t : List Char) :
    unescapeChars (c :: t) = c :: unescapeChars t := by
  cases t with
  | nil => rfl
  | cons c2 rest => simp [unescapeChars, h]

theorem unescapeChars_of_all_not_brace :
    ∀ (l : List Char), (∀ c ∈ l, isBrace c = false) → unescapeChars l = l
  | [], _ => rfl
  | c :: t, h => by
    rw [unescapeChars_cons_of_not_brace c (h c (List.mem_cons_self c t)) t,
      unescapeChars_of_all_not_brace t (fun x hx => h x (List.mem_cons_of_mem c hx))]

theorem noBraces_forall {s : String} (h : noBraces s = true) :
    ∀ c ∈ s.data, isBrace c = false := by
  intro c hc
  have := List.all_eq_true.mp h c hc
  simpa using this

theorem unescape_of_noBraces {s : String} (h : noBraces s = true) : unescape s = s := by
  unfold unescape
  rw [unescapeChars_of_all_not_brace s.data (noBraces_forall h)]

theorem noBraces_append (s t : String) : noBraces (s ++ t) = (noBraces s && noBraces t) := by
  simp [noBraces, data_append, List.all_append]

theorem unescapeChars_append_esc :
    ∀ (l : List Char), (∀ c ∈ l, isBrace c = false) →
      unescapeChars (l ++ [braceL, braceL, '.', '.', braceR, braceR]) =
        l ++ [braceL, '.', '.', braceR]
  | [], _ => by decide
  | c :: t, h => by
    rw [List.cons_append, unescapeChars_cons_of_not_brace c (h c (List.mem_cons_self c t)),
      unescapeChars_append_esc t (fun x hx => h x (List.mem_cons_of_mem c hx)),
      List.cons_append]

theorem unescape_append_escBraceDots {s : String} (h : noBraces s = true) :
    unescape (s ++ escBraceDots) = s ++ braceDots := by
  unfold unescape
  rw [data_append]
  rw [show escBraceDots.data = [braceL, braceL, '.', '.', braceR, braceR] from rfl]
  rw [unescapeChars_append_esc s.data (noBraces_forall h)]
  rfl

theorem noBraces_qualified {a b : String} (ha : noBraces a = true) (hb : noBraces b = true) :
    noBraces (a ++ "::" ++ b) = true := by
  have hc : noBraces "::" = true := by decide
  rw [noBraces_append, noBraces_append, ha, hb, hc]
  rfl

theorem unescape_append_parens {s : String} (h : noBraces s = true) :
    unescape (s ++ "(..)") = s ++ "(..)" := by
  apply unescape_of_noBraces
  have hp : noBraces "(..)" = true := by decide
  rw [noBraces_append, h, hp]
  rfl

/-! ### Helper lemmas about the generated dispatch -/

theorem patVariant_variantArm (ident : String) (v : Variant) :
    patVariant (variantArm ident v).pat = some v.ident := by
  cases hf : v.fields <;> simp [variantArm, hf, patVariant]

theorem armFor_map_variantArm (ident : String) (vs : List Variant) (v : Variant)
    (hv : v ∈ vs) (hnd : (vs.map Variant.ident).Nodup) :
    armFor (vs.map (variantArm ident)) v.ident = some (variantArm ident v) := by
  induction vs with
  | nil => exact absurd hv (List.not_mem_nil v)
  | cons w vs ih =>
    rw [List.map_cons] at hnd
    rcases List.nodup_cons.mp hnd with ⟨hw, hnd2⟩
    rw [List.map_cons]
    rcases List.mem_cons.mp hv with h | h
    · subst h
      unfold armFor
      rw [List.find?_cons_of_pos]
      simp [patVariant_variantArm]
    · have hne : w.ident ≠ v.ident := by
        intro he
        exact hw (he ▸ List.mem_map_of_mem Variant.ident h)
      unfold armFor at ih ⊢
      rw [List.find?_cons_of_neg]
      · exact ih h hnd2
      · simp [patVariant_variantArm, hne]

/-- Claim C1: for every type declaration the generated `fmt` writes
exactly the literal of the output table — `Name\x7b..\x7d`, `Name(..)`
or `Name` for structs, `Name` for any union, and
`Name::Variant\x7b..\x7d`, `Name::Variant(..)` or `Name::Variant` for
the active enum variant — with no surrounding whitespace and no field
interpolation. -/
theorem fmt_output_matches_table (input : DeriveInput) (hI : noBraces input.ident = true) :
    (∀ fs, input.data = Data.struct (Fields.named fs) →
      generatedFmt (deriveShallowDebug input) Value.plain = some (input.ident ++ braceDots))
  ∧ (∀ fs, input.data = Data.struct (Fields.unnamed fs) →
      generatedFmt (deriveShallowDebug input) Value.plain = some (input.ident ++ "(..)"))
  ∧ (input.data = Data.struct Fields.unit →
      generatedFmt (deriveShallowDebug input) Value.plain = some input.ident)
  ∧ (∀ ufs, input.data = Data.union ufs →
      generatedFmt (deriveShallowDebug input) Value.plain = some input.ident)
  ∧ (∀ vs, input.data = Data.enum vs → (vs.map Variant.ident).Nodup →
      ∀ v, v ∈ vs → noBraces v.ident = true →
        ((∀ fs, v.fields = Fields.named fs →
            generatedFmt (deriveShallowDebug input) (Value.enumv v.ident) =
              some (input.ident ++ "::" ++ v.ident ++ braceDots))
        ∧ (∀ fs, v.fields = Fields.unnamed fs →
            generatedFmt (deriveShallowDebug input) (Value.enumv v.ident) =
              some (input.ident ++ "::" ++ v.ident ++ "(..)"))
        ∧ (v.fields = Fields.unit →
            generatedFmt (deriveShallowDebug input) (Value.enumv v.ident) =
              some (input.ident ++ "::" ++ v.ident)))) := by
  refine ⟨?_, ?_, ?_, ?_, ?_⟩
  · intro fs h
    simp only [deriveShallowDebug, h, fmtBody, generatedFmt]
    rw [unescape_append_escBraceDots hI]
  · intro fs h
    simp only [deriveShallowDebug, h, fmtBody, generatedFmt]
    rw [unescape_append_parens hI]
  · intro h
    simp only [deriveShallowDebug, h, fmtBody, generatedFmt]
    rw [unescape_of_noBraces hI]
  · intro ufs h
    simp only [deriveShallowDebug, h, fmtBody, generatedFmt]
    rw [unescape_of_noBraces hI]
  · intro vs h hnd v hv hvB
    have harm := armFor_map_variantArm input.ident vs v hv hnd
    have hq : noBraces (input.ident ++ "::" ++ v.ident) = true := noBraces_qualified hI hvB
    refine ⟨?_, ?_, ?_⟩
    · intro fs hf
      simp only [deriveShallowDebug, h, fmtBody, generatedFmt, harm, Option.map_some']
      simp only [variantArm, hf]
      rw [unescape_append_escBraceDots hq]
    · intro fs hf
      simp only [deriveShallowDebug, h, fmtBody, generatedFmt, harm, Option.map_some']
      simp only [variantArm, hf]
      rw [unescape_append_parens hq]
    · intro hf
      simp only [deriveShallowDebug, h, fmtBody, generatedFmt, harm, Option.map_some']
      simp only [variantArm, hf]
      rw [unescape_of_noBraces hq]

/-- Witness for C1 at `exEnum` and `exStructNamed`. -/
theorem fmt_output_matches_table_witness :
    generatedFmt (deriveShallowDebug exEnum) (Value.enumv "V2") = some "E::V2\x7b..\x7d"
  ∧ generatedFmt (deriveShallowDebug exEnum) (Value.enumv "V3") = some "E::V3(..)"
  ∧ generatedFmt (deriveShallowDebug exEnum) (Value.enumv "V1") = some "E::V1"
  ∧ generatedFmt (deriveShallowDebug exStructNamed) Value.plain = some "Point\x7b..\x7d" := by
  have hEnum := (fmt_output_matches_table exEnum (by decide)).2.2.2.2
    [ ⟨"V1", Fields.unit⟩
    , ⟨"V2", Fields.named [{ name := some "a", ty := "A" }]⟩
    , ⟨"V3", Fields.unnamed [{ name := none, ty := "A" }]⟩ ] rfl (by decide)
  have hStruct := (fmt_output_matches_table exStructNamed (by decide)).1
    [{ name := some "x", ty := "f64" }, { name := some "y", ty := "f64" }] rfl
  refine ⟨?_, ?_, ?_, ?_⟩
  · exact (hEnum ⟨"V2", Fields.named [{ name := some "a", ty := "A" }]⟩ (by decide)
      (by decide)).1 _ rfl
  · exact (hEnum ⟨"V3", Fields.unnamed [{ name := none, ty := "A" }]⟩ (by decide)
      (by decide)).2.1 _ rfl
  · exact (hEnum ⟨"V1", Fields.unit⟩ (by decide) (by decide)).2.2 rfl
  · exact hStruct

/-! ### Helper lemmas about the impl header -/

theorem string_append_empty (s : String) : s ++ "" = s := by
  cases s with
  | mk l =>
    show String.mk (l ++ []) = String.mk l
    rw [List.append_nil]

theorem ty_vars_isEmpty_false {g : Generics} (h : g.params ≠ []) :
    (ty_vars g).isEmpty = false := by
  cases hp : g.params with
  | nil => exact absurd hp h
  | cons p ps => simp [ty_vars, hp, List.isEmpty]

theorem implDebug_generic {input : DeriveInput} (h : input.generics.params ≠ []) :
    implDebug input =
      ImplHeader.generic (ty_vars input.generics) (ty_vars input.generics)
        input.ident (bounds input.generics) := by
  have hc : ¬ (ty_vars input.generics).isEmpty = true := by
    rw [ty_vars_isEmpty_false h]
    exact Bool.false_ne_true
  unfold implDebug
  rw [if_neg hc]

theorem paramBound_eq_none {p : GenericParam} (h : declaredBounds p = []) :
    paramBound p = none := by
  cases p with
  | lifetime l =>
    simp only [declaredBounds] at h
    simp [paramBound, h]
  | type t =>
    simp only [declaredBounds] at h
    simp [paramBound, h]
  | const c => rfl

/-- Claim C2: every type parameter's declared bounds are re-emitted, as
one `ident: bounds` constraint, in the where clause of the impl (not on
the impl's parameter declaration, which carries the identifier alone or
`ident = default`), and every emitted constraint originates either from
some parameter's declared bounds or from the input's where clause — no
Debug or other capability requirement is synthesized. -/
theorem type_param_bounds_relocated (input : DeriveInput) :
    (∀ t : TypeParam, GenericParam.type t ∈ input.generics.params →
      (paramBound (GenericParam.type t) =
        if t.bounds.isEmpty then none
        else some (t.ident ++ ": " ++ String.intercalate " + " t.bounds))
      ∧ (tyVar (GenericParam.type t) = t.ident ∨
          ∃ d, t.default = some d ∧ tyVar (GenericParam.type t) = t.ident ++ " = " ++ d)
      ∧ (¬ t.bounds.isEmpty →
          (t.ident ++ ": " ++ String.intercalate " + " t.bounds) ∈
            headerBounds (implDebug input)))
  ∧ (∀ c ∈ headerBounds (implDebug input),
      (∃ p ∈ input.generics.params, paramBound p = some c) ∨
        c ∈ input.generics.whereClause) := by
  constructor
  · intro t ht
    refine ⟨rfl, ?_, ?_⟩
    · cases hd : t.default with
      | none => exact Or.inl (by simp [tyVar, hd])
      | some d => exact Or.inr ⟨d, rfl, by simp [tyVar, hd]⟩
    · intro hb
      have hne : input.generics.params ≠ [] := List.ne_nil_of_mem ht
      rw [implDebug_generic hne]
      show _ ∈ bounds input.generics
      unfold bounds
      apply List.mem_append_left
      exact List.mem_filterMap.mpr ⟨GenericParam.type t, ht, by simp [paramBound, hb]⟩
  · intro c hc
    unfold implDebug at hc
    split at hc
    · simp [headerBounds] at hc
    · simp only [headerBounds] at hc
      unfold bounds at hc
      rcases List.mem_append.mp hc with h1 | h1
      · rcases List.mem_filterMap.mp h1 with ⟨p, hp, hpc⟩
        exact Or.inl ⟨p, hp, hpc⟩
      · exact Or.inr h1

/-- Witness for C2 at `exBounded`. -/
theorem type_param_bounds_relocated_witness :
    "T: Clone + Send" ∈ headerBounds (implDebug exBounded)
  ∧ tyVar (GenericParam.type { ident := "T", bounds := ["Clone", "Send"], default := none }) =
      "T" := by
  have h := (type_param_bounds_relocated exBounded).1
    { ident := "T", bounds := ["Clone", "Send"], default := none } (by decide)
  have h3 := h.2.2 (by decide)
  constructor
  · have he : ("T" ++ ": " ++ String.intercalate " + " ["Clone", "Send"]) =
        "T: Clone + Send" := by decide
    rw [he] at h3
    exact h3
  · rcases h.2.1 with h4 | ⟨d, hd, _⟩
    · exact h4
    · exact absurd hd (by simp)

/-- Claim C3: the generated dispatch for an enum has exactly one arm per
declared variant, in declaration order, no wildcard arm, and each arm's
pattern names the variant alone and binds no fields (`\x7b..\x7d` /
`(..)` for named/unnamed variants). -/
theorem enum_dispatch_one_arm_per_variant (ident : String) (vs : List Variant) :
    fmtBody ident (Data.enum vs) = FmtBody.matchSelf (vs.map (variantArm ident))
  ∧ (vs.map (variantArm ident)).length = vs.length
  ∧ (∀ v, v ∈ vs →
      (patIsWild (variantArm ident v).pat = false
      ∧ patBinders (variantArm ident v).pat = []
      ∧ patVariant (variantArm ident v).pat = some v.ident
      ∧ (∀ fs, v.fields = Fields.named fs →
          (variantArm ident v).pat = Pat.braceDotsPat [ident, v.ident])
      ∧ (∀ fs, v.fields = Fields.unnamed fs →
          (variantArm ident v).pat = Pat.parenDotsPat [ident, v.ident])
      ∧ (v.fields = Fields.unit →
          (variantArm ident v).pat = Pat.path [ident, v.ident]))) := by
  refine ⟨rfl, by simp, ?_⟩
  intro v hv
  refine ⟨?_, ?_, patVariant_variantArm ident v, ?_, ?_, ?_⟩
  · cases hf : v.fields <;> simp [variantArm, hf, patIsWild]
  · cases hf : v.fields <;> simp [variantArm, hf, patBinders]
  · intro fs hf
    simp [variantArm, hf]
  · intro fs hf
    simp [variantArm, hf]
  · intro hf
    simp [variantArm, hf]

/-- Witness for C3 at the variants of `exEnum`. -/
theorem enum_dispatch_one_arm_per_variant_witness :
    (variantArm "E" ⟨"V1", Fields.unit⟩).pat = Pat.path ["E", "V1"]
  ∧ patIsWild (variantArm "E" ⟨"V2", Fields.named [{ name := some "a", ty := "A" }]⟩).pat =
      false := by
  have h := enum_dispatch_one_arm_per_variant "E"
    [ ⟨"V1", Fields.unit⟩
    , ⟨"V2", Fields.named [{ name := some "a", ty := "A" }]⟩
    , ⟨"V3", Fields.unnamed [{ name := none, ty := "A" }]⟩ ]
  exact ⟨(h.2.2 _ (by decide)).2.2.2.2.2 rfl, (h.2.2 _ (by decide)).1⟩

/-- Claim C4 counterexample: `struct Foo where String: Clone;` has a
free-standing where clause but an empty generic parameter list; the
generator takes the bare branch and the predicate is absent from the
emitted impl's constraints. -/
theorem where_clause_dropped_without_generics :
    "String: Clone" ∈ exWhereNoGenerics.generics.whereClause
  ∧ implDebug exWhereNoGenerics = ImplHeader.bare "Foo"
  ∧ "String: Clone" ∉ headerBounds (implDebug exWhereNoGenerics) := by
  refine ⟨by decide, by decide, by decide⟩

/-- Claim C4 amended: when the declaration has at least one generic
parameter, every where-clause predicate is carried through unchanged
into the emitted constraints, appended after the per-parameter-derived
ones and preserving order; with zero generic parameters the where clause
is dropped along with the whole clause. -/
theorem where_predicates_appended_after_param_bounds (input : DeriveInput)
    (h : input.generics.params ≠ []) :
    headerBounds (implDebug input) =
      input.generics.params.filterMap paramBound ++ input.generics.whereClause := by
  rw [implDebug_generic h]
  rfl

/-- Witness for the amended C4 at `exBounded`. -/
theorem where_predicates_appended_after_param_bounds_witness :
    headerBounds (implDebug exBounded) = ["T: Clone + Send", "T: Sync"] := by
  have h := where_predicates_appended_after_param_bounds exBounded (by decide)
  rw [h]
  decide

/-- Claim C5: a declaration with zero generic parameters yields a bare
impl header: no parameter list, no argument list on the target, no
constraint clause. -/
theorem zero_generics_bare_impl (input : DeriveInput)
    (h : input.generics.params = []) :
    implDebug input = ImplHeader.bare input.ident
  ∧ renderHeader (implDebug input) = "impl std::fmt::Debug for " ++ input.ident := by
  have hb : implDebug input = ImplHeader.bare input.ident := by
    simp [implDebug, ty_vars, h]
  refine ⟨hb, ?_⟩
  rw [hb]
  rfl

/-- Witness for C5 at `exStructNamed`. -/
theorem zero_generics_bare_impl_witness :
    implDebug exStructNamed = ImplHeader.bare "Point"
  ∧ renderHeader (implDebug exStructNamed) = "impl std::fmt::Debug for Point" := by
  have h := zero_generics_bare_impl exStructNamed rfl
  exact ⟨h.1, by rw [h.2]; decide⟩

/-- Claim C6: a declared default type of a type parameter is preserved
verbatim in the emitted generic parameter of the impl. -/
theorem type_param_default_preserved (input : DeriveInput) (t : TypeParam) (d : String)
    (ht : GenericParam.type t ∈ input.generics.params) (hd : t.default = some d) :
    tyVar (GenericParam.type t) = t.ident ++ " = " ++ d
  ∧ (t.ident ++ " = " ++ d) ∈ headerImplParams (implDebug input) := by
  have h1 : tyVar (GenericParam.type t) = t.ident ++ " = " ++ d := by simp [tyVar, hd]
  have hne : input.generics.params ≠ [] := List.ne_nil_of_mem ht
  rw [implDebug_generic hne]
  refine ⟨h1, ?_⟩
  show _ ∈ ty_vars input.generics
  unfold ty_vars
  exact h1 ▸ List.mem_map_of_mem tyVar ht

/-- Witness for C6 at `exDefault`. -/
theorem type_param_default_preserved_witness :
    ("T = i32") ∈ headerImplParams (implDebug exDefault) := by
  have h := type_param_default_preserved exDefault
    { ident := "T", bounds := [], default := some "i32" } "i32" (by decide) rfl
  exact h.2

/-- Claim C7 (code-bug evidence): the generic argument list applied to
the type name in the impl target is filled from the same `ty_vars`
tokens as the impl's parameter list, so a const parameter appears there
as its full declaration `const N: usize` — not the bare identifier `N` —
and a defaulted type parameter appears as `T = i32`, not `T`. -/
theorem target_args_not_bare_identifiers :
    headerTargetArgs (implDebug exConst) = ["const N: usize"]
  ∧ "N" ∉ headerTargetArgs (implDebug exConst)
  ∧ headerTargetArgs (implDebug exDefault) = ["T = i32"]
  ∧ "T" ∉ headerTargetArgs (implDebug exDefault) := by
  refine ⟨by decide, by decide, by decide, by decide⟩

/-- Claim C8: parse failure is the only failure mode and emits no
generated impl; every successfully parsed declaration is handled totally
and succeeds. -/
theorem single_failure_mode_total :
    (∀ e, deriveEntry (Except.error e) = Except.error e)
  ∧ (∀ input, deriveEntry (Except.ok input) = Except.ok (deriveShallowDebug input))
  ∧ (∀ r, (∃ g, deriveEntry r = Except.ok g) ↔ ∃ i, r = Except.ok i) := by
  refine ⟨fun _ => rfl, fun _ => rfl, ?_⟩
  intro r
  cases r <;> simp [deriveEntry]

/-! ### Helper lemmas for skeleton invariance -/

theorem variantArm_skel (i : String) {v w : Variant} (h : variantSkel v = variantSkel w) :
    variantArm i v = variantArm i w := by
  cases v with
  | mk vi vf =>
    cases w with
    | mk wi wf =>
      simp only [variantSkel, Prod.mk.injEq] at h
      obtain ⟨h1, h2⟩ := h
      subst h1
      cases vf <;> cases wf <;> simp [fieldsKind, variantArm] at h2 ⊢

theorem map_variantArm_skel (i : String) :
    ∀ vs ws : List Variant, vs.map variantSkel = ws.map variantSkel →
      vs.map (variantArm i) = ws.map (variantArm i)
  | [], [], _ => rfl
  | [], _ :: _, h => by simp at h
  | _ :: _, [], h => by simp at h
  | v :: vs, w :: ws, h => by
    simp only [List.map_cons, List.cons.injEq] at h ⊢
    exact ⟨variantArm_skel i h.1, map_variantArm_skel i vs ws h.2⟩

theorem fmtBody_skel (i : String) (d1 d2 : Data) (h : dataSkel d1 = dataSkel d2) :
    fmtBody i d1 = fmtBody i d2 := by
  cases d1 with
  | enum vs1 =>
    cases d2 with
    | enum vs2 =>
      simp only [dataSkel, DataSkel.enumS.injEq] at h
      simp only [fmtBody]
      rw [map_variantArm_skel i vs1 vs2 h]
    | struct fs2 => simp [dataSkel] at h
    | union fs2 => simp [dataSkel] at h
  | struct fs1 =>
    cases d2 with
    | enum vs2 => simp [dataSkel] at h
    | struct fs2 =>
      simp only [dataSkel, DataSkel.structS.injEq] at h
      cases fs1 <;> cases fs2 <;> simp [fieldsKind, fmtBody] at h ⊢
    | union fs2 => simp [dataSkel] at h
  | union fs1 =>
    cases d2 with
    | enum vs2 => simp [dataSkel] at h
    | struct fs2 => simp [dataSkel] at h
    | union fs2 => simp [fmtBody]

/-- Claim C9: two declarations agreeing on identifier, generics, and
shape skeleton (shape kind, variant names, field-grouping kinds) but
differing arbitrarily in field names and field types generate the same
impl and the same output text. -/
theorem field_data_never_influences_output (a b : DeriveInput)
    (h1 : a.ident = b.ident) (h2 : a.generics = b.generics)
    (h3 : dataSkel a.data = dataSkel b.data) :
    deriveShallowDebug a = deriveShallowDebug b
  ∧ renderImpl (deriveShallowDebug a) = renderImpl (deriveShallowDebug b) := by
  have hd : deriveShallowDebug a = deriveShallowDebug b := by
    unfold deriveShallowDebug
    congr 1
    · simp only [implDebug, ty_vars, bounds, h1, h2]
    · rw [h1, fmtBody_skel b.ident a.data b.data h3]
  exact ⟨hd, by rw [hd]⟩

/-- Witness for C9 at `exSkelA` and `exSkelB`: same skeleton, different
field names, counts and types. -/
theorem field_data_never_influences_output_witness :
    deriveShallowDebug exSkelA = deriveShallowDebug exSkelB
  ∧ renderImpl (deriveShallowDebug exSkelA) = renderImpl (deriveShallowDebug exSkelB) := by
  exact field_data_never_influences_output exSkelA exSkelB rfl rfl (by decide)

/-- Claim C10: with at least one generic parameter, all parameters
bound-free and no free-standing where clause, the emitted header still
contains the `where` keyword followed by zero constraints. -/
theorem empty_where_clause_still_emitted (input : DeriveInput)
    (h1 : input.generics.params ≠ [])
    (h2 : ∀ p ∈ input.generics.params, declaredBounds p = [])
    (h3 : input.generics.whereClause = []) :
    headerBounds (implDebug input) = []
  ∧ (∃ pre, renderHeader (implDebug input) = pre ++ "> where ") := by
  have hb : bounds input.generics = [] := by
    unfold bounds
    rw [h3, List.append_nil]
    exact List.filterMap_eq_nil_iff.mpr (fun p hp => paramBound_eq_none (h2 p hp))
  rw [implDebug_generic h1]
  constructor
  · exact hb
  · refine ⟨"impl<" ++ String.intercalate ", " (ty_vars input.generics) ++
      "> std::fmt::Debug for " ++ input.ident ++ "<" ++
      String.intercalate ", " (ty_vars input.generics), ?_⟩
    simp only [renderHeader, hb]
    show _ ++ "" = _
    rw [string_append_empty]

/-- Witness for C10 at `exPlain`. -/
theorem empty_where_clause_still_emitted_witness :
    headerBounds (implDebug exPlain) = []
  ∧ (∃ pre, renderHeader (implDebug exPlain) = pre ++ "> where ") := by
  exact empty_where_clause_still_emitted exPlain (by decide) (by decide) rfl

end ShallowDebug
